import Mathlib

/-!
# inertial_body: the spring-damper step of `InertialBody`

Shallow embedding of `src/core/include/inertial_body/InertialBody.h` and
`src/InertialBody.cpp`.

Number model.  The C++ `double` is modelled by an arbitrary linearly ordered
field `α` with exact arithmetic: rounding, signed zero, infinities and NaN are
outside the model.  Consequences that matter below:

* `std::copysign y d` reads the sign bit of `d`; the model has one zero, which
  stands for `+0.0` (the value of `x - x` in round-to-nearest), so the sign of
  `0` is positive.
* `std::pow` is a library function, not code of this repository.  It is a
  parameter `pow : α → α → α` of `InertialBody.step`; a theorem that needs a
  fact about it takes that fact as a hypothesis.  Every such hypothesis is a
  special value fixed by the C standard (Annex F: `pow(x, 0) = 1` for every
  `x`, `pow(0, y) = 0` for `y > 0`), exactness of `pow(x, 1)`, or
  non-negativity on a non-negative base, and each one is shown below to hold
  for the real power function `Real.rpow`.
* a quotient by `0` is not a finite number in C++; statements about the value
  of a quotient are meant for a divisor different from `0`.

A C++ method that mutates `*this` is a function from the object before the call
to the object after it; a method that also returns a value returns a pair.

Where rounding, underflow or overflow decides what the code does, the same
source statements are mirrored a second time over `Binary64`, a model of the
IEEE-754 binary64 values and of `+`, `-`, `*`, `/` in round-to-nearest,
ties-to-even (`InertialState.step64`, `InertialBody.step64`).
-/

namespace inertial_body

/-- Mirror of `struct InertialBody::InertialState` (the source spells the last
field `accelation`). -/
structure InertialState (α : Type) where
  target : α
  position : α
  velocity : α
  accelation : α
  deriving DecidableEq, Repr

/-- Mirror of `class InertialBody`: the owned state and the four private
parameters. -/
structure InertialBody (α : Type) where
  currentStatus : InertialState α
  elasticity : α
  friction : α
  mass : α
  distanceExponent : α
  deriving DecidableEq, Repr

section Embedding

variable {α : Type} [LinearOrderedField α]

/-- Mirror of `std::copysign(y, d)`: the magnitude of `y` with the sign of `d`;
the zero of the model is `+0.0`. -/
def copysign (y d : α) : α :=
  if d < 0 then -|y| else |y|

namespace InertialState

/-- Mirror of the constructor `InertialState(_target, _position, _velocity,
_accelation)`. -/
def construct (_target _position _velocity _accelation : α) : InertialState α :=
  { target := _target, position := _position, velocity := _velocity,
    accelation := _accelation }

/-- Mirror of `InertialState()`: every default argument is `.0`. -/
def constructDefault : InertialState α :=
  construct 0 0 0 0

/-- Mirror of `InertialState::reset()`: the four assignments, in order. -/
def reset (s : InertialState α) : InertialState α :=
  let s1 := { s with target := 0 }
  let s2 := { s1 with position := 0 }
  let s3 := { s2 with velocity := 0 }
  { s3 with accelation := 0 }

/-- Mirror of `InertialState::step(_accelation)`:
`accelation = _accelation; velocity += accelation; position += velocity;`. -/
def step (s : InertialState α) (_accelation : α) : InertialState α :=
  let s1 := { s with accelation := _accelation }
  let s2 := { s1 with velocity := s1.velocity + s1.accelation }
  { s2 with position := s2.position + s2.velocity }

/-- Mirror of `InertialState::getDistance()`. -/
def getDistance (s : InertialState α) : α :=
  s.target - s.position

end InertialState

namespace InertialBody

/-- Mirror of the constructor `InertialBody(_elasticity, _friction, _mass,
_distanceExponent)`: the member `currentStatus` is default-constructed. -/
def construct (_elasticity _friction _mass _distanceExponent : α) : InertialBody α :=
  { currentStatus := InertialState.constructDefault,
    elasticity := _elasticity,
    friction := _friction,
    mass := _mass,
    distanceExponent := _distanceExponent }

/-- Mirror of `InertialBody()`: the default arguments of the declaration,
`.5, .5, .5, 0`. -/
def constructDefault : InertialBody α :=
  construct 0.5 0.5 0.5 0

/-- Mirror of `InertialBody::getCurrentStatus()`. -/
def getCurrentStatus (b : InertialBody α) : InertialState α :=
  b.currentStatus

/-- Mirror of `InertialBody::resetMovement()`. -/
def resetMovement (b : InertialBody α) : InertialBody α :=
  { b with currentStatus := b.currentStatus.reset }

/-- The local `spring` of `InertialBody::step()`:
`elasticity * std::copysign(std::pow(std::abs(d), distanceExponent), d)` with
`d = currentStatus.getDistance()`. -/
def spring (pow : α → α → α) (b : InertialBody α) : α :=
  let d := b.currentStatus.getDistance
  b.elasticity * copysign (pow |d| b.distanceExponent) d

/-- The local `damping` of `InertialBody::step()`. -/
def damping (b : InertialBody α) : α :=
  b.friction * b.currentStatus.velocity

/-- Mirror of `InertialBody::step()`: the returned copy of the state and the
body after the call. -/
def step (pow : α → α → α) (b : InertialBody α) : InertialState α × InertialBody α :=
  let b1 := { b with
    currentStatus := b.currentStatus.step ((spring pow b + damping b) / b.mass) }
  (b1.currentStatus, b1)

/-- Mirror of `InertialBody::getDistanceExponent()`. -/
def getDistanceExponent (b : InertialBody α) : α :=
  b.distanceExponent

/-- Mirror of `InertialBody::setDistanceExponent(distanceExponent)`. -/
def setDistanceExponent (b : InertialBody α) (distanceExponent : α) : InertialBody α :=
  { b with distanceExponent := distanceExponent }

/-- Mirror of `InertialBody::getElasticity()`. -/
def getElasticity (b : InertialBody α) : α :=
  b.elasticity

/-- Mirror of `InertialBody::setElasticity(elasticity)`. -/
def setElasticity (b : InertialBody α) (elasticity : α) : InertialBody α :=
  { b with elasticity := elasticity }

/-- Mirror of `InertialBody::getFriction()`. -/
def getFriction (b : InertialBody α) : α :=
  b.friction

/-- Mirror of `InertialBody::setFriction(friction)`. -/
def setFriction (b : InertialBody α) (friction : α) : InertialBody α :=
  { b with friction := friction }

/-- Mirror of `InertialBody::getMass()`. -/
def getMass (b : InertialBody α) : α :=
  b.mass

/-- Mirror of `InertialBody::setMass(mass)`. -/
def setMass (b : InertialBody α) (mass : α) : InertialBody α :=
  { b with mass := mass }

end InertialBody

end Embedding

/-! ## Sequences of calls -/

section Calls

variable {α : Type} [LinearOrderedField α]

/-- The body after `n` consecutive calls of `InertialBody::step()`. -/
def InertialBody.stepTimes (pow : α → α → α) : Nat → InertialBody α → InertialBody α
  | 0, b => b
  | n + 1, b => ((InertialBody.stepTimes pow n b).step pow).2

/-- The public member functions of `class InertialBody` that are not `const`:
one call, with its argument. -/
inductive Call (α : Type) where
  | resetMovement : Call α
  | step : Call α
  | setDistanceExponent (distanceExponent : α) : Call α
  | setElasticity (elasticity : α) : Call α
  | setFriction (friction : α) : Call α
  | setMass (mass : α) : Call α
  deriving DecidableEq, Repr

/-- The body after one call. -/
def Call.apply (pow : α → α → α) (c : Call α) (b : InertialBody α) : InertialBody α :=
  match c with
  | Call.resetMovement => b.resetMovement
  | Call.step => (b.step pow).2
  | Call.setDistanceExponent v => b.setDistanceExponent v
  | Call.setElasticity v => b.setElasticity v
  | Call.setFriction v => b.setFriction v
  | Call.setMass v => b.setMass v

/-- The body after a sequence of calls, first call first. -/
def runCalls (pow : α → α → α) : List (Call α) → InertialBody α → InertialBody α
  | [], b => b
  | c :: cs, b => runCalls pow cs (c.apply pow b)

end Calls

/-! ## The stepping law in the words of the spec -/

section Spec

variable {α : Type} [LinearOrderedField α]

/-- The sign of the spec, `sign(d)`: `1`, `0` or `-1` as a number. -/
def specSign (d : α) : α :=
  if 0 < d then 1 else if d < 0 then -1 else 0

/-- The net acceleration of the spec (section 4.2, steps 1 to 4):
`(elasticity * sign(d) * |d|^distanceExponent + friction * velocity) / mass`
with `d = target - position`. -/
def specNetAcceleration (pow : α → α → α) (b : InertialBody α) : α :=
  let d := b.currentStatus.target - b.currentStatus.position
  (b.elasticity * specSign d * pow |d| b.distanceExponent
    + b.friction * b.currentStatus.velocity) / b.mass

end Spec

/-! ## Concrete inputs -/

section Inputs

variable {α : Type} [LinearOrderedField α]

/-- The worked example of the spec: `elasticity = friction = mass = 0.5`,
`distanceExponent = 1`, `target = 10`, at rest at position `0`. -/
def workedExample : InertialBody α :=
  { currentStatus := InertialState.construct 10 0 0 0,
    elasticity := 0.5, friction := 0.5, mass := 0.5, distanceExponent := 1 }

/-- The body `b` with the recorded acceleration of its state overwritten by `a`. -/
def withAccelation (b : InertialBody α) (a : α) : InertialBody α :=
  { b with currentStatus := { b.currentStatus with accelation := a } }

/-- A body with the parameters `e f m x` whose state has target `t`, position
`p`, velocity `v` and a zero recorded acceleration. -/
def bodyAt (e f m x t p v : α) : InertialBody α :=
  { currentStatus := InertialState.construct t p v 0,
    elasticity := e, friction := f, mass := m, distanceExponent := x }

end Inputs

/-! ## The same code in `double` arithmetic

The sections above compute in an exact field.  The definitions of this section
mirror the same source statements once more with the operations of IEEE-754
binary64 in the default rounding mode (round to nearest, ties to even): they
are used where rounding, underflow or overflow decides what the code does. -/

/-- The values of a C++ `double` (IEEE-754 binary64): a finite value
`(-1)^negative * magnitude` with `magnitude ≥ 0` (both zeros are finite
values), an infinity, or NaN. -/
inductive Binary64 where
  | finite (negative : Bool) (magnitude : ℚ) : Binary64
  | infinite (negative : Bool) : Binary64
  | nan : Binary64
  deriving DecidableEq, Repr

namespace Binary64

/-- The power `2^e` of two as a rational, computed with powers of naturals. -/
def twoPow (e : ℤ) : ℚ :=
  if 0 ≤ e then ((2 ^ e.toNat : ℕ) : ℚ) else 1 / ((2 ^ (-e).toNat : ℕ) : ℚ)

/-- The exponent `e` of the binade of a positive rational: `2^e ≤ m < 2^(e+1)`. -/
def binadeExponent (m : ℚ) : ℤ :=
  if twoPow ((Nat.log2 m.num.natAbs : ℤ) - (Nat.log2 m.den : ℤ)) ≤ m then
    (Nat.log2 m.num.natAbs : ℤ) - (Nat.log2 m.den : ℤ)
  else (Nat.log2 m.num.natAbs : ℤ) - (Nat.log2 m.den : ℤ) - 1

/-- The exponent of the unit in the last place at magnitude `m`: 52 binary
digits below the binade, and never below the subnormal spacing `2^-1074`. -/
def ulpExponent (m : ℚ) : ℤ :=
  max (binadeExponent m - 52) (-1074)

/-- The integer nearest to `q`, the even one of the two when `q` is half-way. -/
def roundHalfEven (q : ℚ) : ℤ :=
  if q - ⌊q⌋ < 1 / 2 then ⌊q⌋
  else if 1 / 2 < q - ⌊q⌋ then ⌊q⌋ + 1
  else if ⌊q⌋ % 2 = 0 then ⌊q⌋ else ⌊q⌋ + 1

/-- The `double` with the given sign nearest to the exact magnitude `m ≥ 0`:
at most half the smallest subnormal gives zero, `2^1024` and more (before or
after rounding) gives infinity. -/
def round (negative : Bool) (m : ℚ) : Binary64 :=
  if m ≤ twoPow (-1075) then finite negative 0
  else if twoPow 1024 ≤ m then infinite negative
  else if (roundHalfEven (m / twoPow (ulpExponent m)) : ℚ) * twoPow (ulpExponent m)
      < twoPow 1024 then
    finite negative ((roundHalfEven (m / twoPow (ulpExponent m)) : ℚ) * twoPow (ulpExponent m))
  else infinite negative

/-- The rational value of a finite `double` given by sign and magnitude. -/
def signed (negative : Bool) (m : ℚ) : ℚ :=
  if negative then -m else m

/-- Unary minus: flips the sign bit. -/
def neg : Binary64 → Binary64
  | finite s m => finite (!s) m
  | infinite s => infinite (!s)
  | nan => nan

/-- Mirror of `std::abs` on `double`: clears the sign bit. -/
def abs : Binary64 → Binary64
  | finite _ m => finite false m
  | infinite _ => infinite false
  | nan => nan

/-- The sign bit; NaN is taken with a clear sign bit. -/
def signBit : Binary64 → Bool
  | finite s _ => s
  | infinite s => s
  | nan => false

/-- Mirror of `std::copysign(y, d)` on `double`: `y` with the sign bit of `d`. -/
def copysign (y d : Binary64) : Binary64 :=
  match y with
  | finite _ m => finite (signBit d) m
  | infinite _ => infinite (signBit d)
  | nan => nan

/-- Addition of `double`: the exact sum rounded; an exact zero sum is `-0` only
when both operands are negative. -/
def add : Binary64 → Binary64 → Binary64
  | finite s m, finite t n =>
      if signed s m + signed t n = 0 then finite (s && t) 0
      else round (decide (signed s m + signed t n < 0)) |signed s m + signed t n|
  | finite _ _, infinite t => infinite t
  | infinite s, finite _ _ => infinite s
  | infinite s, infinite t => if s = t then infinite s else nan
  | _, _ => nan

/-- Subtraction of `double`. -/
def sub (a b : Binary64) : Binary64 :=
  add a (neg b)

/-- Multiplication of `double`: the exact product rounded, the sign is the
exclusive or of the signs; infinity times zero is NaN. -/
def mul : Binary64 → Binary64 → Binary64
  | finite s m, finite t n => round (xor s t) (m * n)
  | finite s m, infinite t => if m = 0 then nan else infinite (xor s t)
  | infinite s, finite t n => if n = 0 then nan else infinite (xor s t)
  | infinite s, infinite t => infinite (xor s t)
  | _, _ => nan

/-- Division of `double`: the exact quotient rounded; a non-zero value divided
by zero is an infinity, zero by zero and infinity by infinity are NaN. -/
def div : Binary64 → Binary64 → Binary64
  | finite s m, finite t n =>
      if n = 0 then (if m = 0 then nan else infinite (xor s t))
      else round (xor s t) (m / n)
  | finite s _, infinite t => finite (xor s t) 0
  | infinite s, finite t _ => infinite (xor s t)
  | _, _ => nan

/-- The value of `std::pow` for an exponent `+0` or `-0`: the C standard
(Annex F) fixes `pow(x, ±0) = 1` for every `x`, NaN included.  No other
exponent is modelled: there the result is the marker NaN, and nothing below
evaluates this function at a non-zero exponent. -/
def powZeroExponent (_x y : Binary64) : Binary64 :=
  match y with
  | finite _ m => if m = 0 then finite false 1 else nan
  | _ => nan

end Binary64

/-- Mirror of `InertialState()` in `double`: all four fields `.0`. -/
def InertialState.constructDefault64 : InertialState Binary64 :=
  { target := Binary64.finite false 0, position := Binary64.finite false 0,
    velocity := Binary64.finite false 0, accelation := Binary64.finite false 0 }

/-- Mirror of `InertialState::step(_accelation)` in `double`. -/
def InertialState.step64 (s : InertialState Binary64) (_accelation : Binary64) :
    InertialState Binary64 :=
  let s1 := { s with accelation := _accelation }
  let s2 := { s1 with velocity := Binary64.add s1.velocity s1.accelation }
  { s2 with position := Binary64.add s2.position s2.velocity }

/-- Mirror of `InertialState::getDistance()` in `double`. -/
def InertialState.getDistance64 (s : InertialState Binary64) : Binary64 :=
  Binary64.sub s.target s.position

/-- Mirror of the constructor of `InertialBody` in `double`. -/
def InertialBody.construct64 (_elasticity _friction _mass _distanceExponent : Binary64) :
    InertialBody Binary64 :=
  { currentStatus := InertialState.constructDefault64,
    elasticity := _elasticity,
    friction := _friction,
    mass := _mass,
    distanceExponent := _distanceExponent }

/-- Mirror of `InertialBody()` in `double`: `.5, .5, .5, 0`, all exact. -/
def InertialBody.constructDefault64 : InertialBody Binary64 :=
  InertialBody.construct64 (Binary64.finite false (1 / 2)) (Binary64.finite false (1 / 2))
    (Binary64.finite false (1 / 2)) (Binary64.finite false 0)

/-- Mirror of `InertialBody::step()` in `double`, statement by statement: the
returned copy of the state and the body after the call. -/
def InertialBody.step64 (pow : Binary64 → Binary64 → Binary64) (b : InertialBody Binary64) :
    InertialState Binary64 × InertialBody Binary64 :=
  let d := b.currentStatus.getDistance64
  let spring := Binary64.mul b.elasticity
    (Binary64.copysign (pow (Binary64.abs d) b.distanceExponent) d)
  let damping := Binary64.mul b.friction b.currentStatus.velocity
  let b1 := { b with
    currentStatus := b.currentStatus.step64 (Binary64.div (Binary64.add spring damping) b.mass) }
  (b1.currentStatus, b1)

/-- A freshly constructed body `InertialBody(2^-600, 0.5, 2^600, 0)`: every
argument is an exact `double`. -/
def underflowBody : InertialBody Binary64 :=
  InertialBody.construct64 (Binary64.finite false (Binary64.twoPow (-600)))
    (Binary64.finite false (1 / 2)) (Binary64.finite false (Binary64.twoPow 600))
    (Binary64.finite false 0)

section Lemmas

variable {α : Type} [LinearOrderedField α]

theorem copysign_of_neg (y d : α) (hd : d < 0) : copysign y d = -|y| := by
  simp [copysign, hd]

theorem copysign_of_nonneg (y d : α) (hd : 0 ≤ d) : copysign y d = |y| := by
  simp [copysign, not_lt.mpr hd]

theorem copysign_eq_specSign_mul (y d : α) (hy : 0 ≤ y) (hd : d ≠ 0) :
    copysign y d = specSign d * y := by
  rcases lt_or_gt_of_ne hd with h | h
  · simp [copysign, specSign, h, not_lt.mpr h.le, abs_of_nonneg hy]
  · simp [copysign, specSign, h, not_lt.mpr h.le, abs_of_nonneg hy]

theorem copysign_abs_self (d : α) : copysign |d| d = d := by
  by_cases h : d < 0
  · simp [copysign, h, abs_of_neg h]
  · simp [copysign, h, abs_of_nonneg (not_lt.mp h)]

theorem step_accelation (pow : α → α → α) (b : InertialBody α) :
    (b.step pow).2.currentStatus.accelation =
      (b.spring pow + b.damping) / b.mass := rfl

theorem step_velocity (pow : α → α → α) (b : InertialBody α) :
    (b.step pow).2.currentStatus.velocity =
      b.currentStatus.velocity + (b.spring pow + b.damping) / b.mass := rfl

theorem step_position (pow : α → α → α) (b : InertialBody α) :
    (b.step pow).2.currentStatus.position =
      b.currentStatus.position +
        (b.currentStatus.velocity + (b.spring pow + b.damping) / b.mass) := rfl

/-- At distance zero the spring term is `elasticity * |pow 0 distanceExponent|`. -/
theorem spring_at_target (pow : α → α → α) (b : InertialBody α)
    (h : b.currentStatus.position = b.currentStatus.target) :
    b.spring pow = b.elasticity * |pow 0 b.distanceExponent| := by
  simp [InertialBody.spring, InertialState.getDistance, h, copysign]

/-- Away from the target the spring term is the signed power of the spec, as
soon as `pow` is non-negative on the magnitude of the distance. -/
theorem spring_eq_spec (pow : α → α → α) (b : InertialBody α)
    (hpow : ∀ x y : α, 0 ≤ x → 0 ≤ pow x y)
    (hd : b.currentStatus.target - b.currentStatus.position ≠ 0) :
    b.spring pow =
      b.elasticity * specSign (b.currentStatus.target - b.currentStatus.position) *
        pow |b.currentStatus.target - b.currentStatus.position| b.distanceExponent := by
  unfold InertialBody.spring InertialState.getDistance
  simp only []
  rw [copysign_eq_specSign_mul _ _ (hpow _ _ (abs_nonneg _)) hd, mul_assoc]

/-! The facts about `pow` used as hypotheses hold for the real power function. -/

theorem rpow_nonneg_base (x y : ℝ) (hx : 0 ≤ x) : 0 ≤ Real.rpow x y :=
  Real.rpow_nonneg hx y

theorem rpow_exponent_one (x : ℝ) : Real.rpow x 1 = x :=
  Real.rpow_one x

theorem rpow_exponent_zero (x : ℝ) : Real.rpow x 0 = 1 :=
  Real.rpow_zero x

theorem rpow_base_zero (y : ℝ) (hy : 0 < y) : Real.rpow 0 y = 0 :=
  Real.zero_rpow hy.ne.symm

/-- One call of the public interface keeps a zero target. -/
theorem call_keeps_zero_target (pow : α → α → α) (c : Call α) (b : InertialBody α)
    (h : b.currentStatus.target = 0) : (c.apply pow b).currentStatus.target = 0 := by
  cases c
  · rfl
  · exact h
  all_goals exact h

/-- A sequence of calls keeps a zero target. -/
theorem runCalls_keeps_zero_target (pow : α → α → α) (cs : List (Call α)) :
    ∀ b : InertialBody α, b.currentStatus.target = 0 →
      (runCalls pow cs b).currentStatus.target = 0 := by
  induction cs with
  | nil => intro b h; exact h
  | cons c cs ih => intro b h; exact ih _ (call_keeps_zero_target pow c b h)

end Lemmas

/-! ## Rounding lemmas for `Binary64` -/

namespace Binary64

theorem twoPow_eq (e : ℤ) : twoPow e = (2 : ℚ) ^ e := by
  unfold twoPow
  split
  · next h =>
    rw [Nat.cast_pow, Nat.cast_ofNat, ← zpow_natCast, Int.toNat_of_nonneg h]
  · next h =>
    have h0 : 0 ≤ -e := by omega
    rw [Nat.cast_pow, Nat.cast_ofNat, ← zpow_natCast, Int.toNat_of_nonneg h0, zpow_neg,
      one_div, inv_inv]

theorem binade_unique (m : ℚ) (e r : ℤ) (h1 : (2 : ℚ) ^ e ≤ m) (h2 : m < 2 ^ (e + 1))
    (h3 : (2 : ℚ) ^ r ≤ m) (h4 : m < 2 ^ (r + 1)) : r = e := by
  have a : e < r + 1 :=
    (zpow_lt_zpow_iff_right₀ (by norm_num : (1 : ℚ) < 2)).mp (lt_of_le_of_lt h1 h4)
  have b : r < e + 1 :=
    (zpow_lt_zpow_iff_right₀ (by norm_num : (1 : ℚ) < 2)).mp (lt_of_le_of_lt h3 h2)
  omega

theorem binadeExponent_spec (m : ℚ) (hm : 0 < m) :
    (2 : ℚ) ^ binadeExponent m ≤ m ∧ m < 2 ^ (binadeExponent m + 1) := by
  have hnum : 0 < m.num := Rat.num_pos.mpr hm
  have hn0 : m.num.natAbs ≠ 0 := by omega
  have hd0 : m.den ≠ 0 := m.den_nz
  have hcast : ((m.num.natAbs : ℕ) : ℚ) = m * (m.den : ℚ) := by
    have h1 : ((m.num.natAbs : ℕ) : ℤ) = m.num := Int.natAbs_of_nonneg hnum.le
    have h2 : ((m.num.natAbs : ℕ) : ℚ) = (m.num : ℚ) := by
      rw [← h1, Int.cast_natCast, Int.natAbs_cast]
    rw [h2]
    exact (Rat.mul_den_eq_num m).symm
  have hdpos : (0 : ℚ) < (m.den : ℚ) := by exact_mod_cast Nat.pos_of_ne_zero hd0
  have ha1 : ((2 : ℚ) ^ (Nat.log2 m.num.natAbs : ℕ)) ≤ ((m.num.natAbs : ℕ) : ℚ) := by
    exact_mod_cast Nat.log2_self_le hn0
  have ha2 : ((m.num.natAbs : ℕ) : ℚ) < (2 : ℚ) ^ (Nat.log2 m.num.natAbs + 1 : ℕ) := by
    exact_mod_cast (Nat.lt_log2_self : m.num.natAbs < 2 ^ (Nat.log2 m.num.natAbs + 1))
  have hb1 : ((2 : ℚ) ^ (Nat.log2 m.den : ℕ)) ≤ (m.den : ℚ) := by
    exact_mod_cast Nat.log2_self_le hd0
  have hb2 : (m.den : ℚ) < (2 : ℚ) ^ (Nat.log2 m.den + 1 : ℕ) := by
    exact_mod_cast (Nat.lt_log2_self : m.den < 2 ^ (Nat.log2 m.den + 1))
  have hpa : (0 : ℚ) < 2 ^ (Nat.log2 m.den : ℕ) := by positivity
  have hpb : (0 : ℚ) < 2 ^ (Nat.log2 m.den + 1 : ℕ) := by positivity
  -- upper bound
  have hA : m < (2 : ℚ) ^ ((Nat.log2 m.num.natAbs : ℤ) - (Nat.log2 m.den : ℤ) + 1) := by
    have e1 : ((Nat.log2 m.num.natAbs : ℤ) - (Nat.log2 m.den : ℤ) + 1) =
        ((Nat.log2 m.num.natAbs + 1 : ℕ) : ℤ) - ((Nat.log2 m.den : ℕ) : ℤ) := by
      push_cast; ring
    rw [e1, zpow_sub₀ (two_ne_zero), zpow_natCast, zpow_natCast, lt_div_iff₀ hpa]
    calc m * 2 ^ (Nat.log2 m.den : ℕ) ≤ m * (m.den : ℚ) :=
          mul_le_mul_of_nonneg_left hb1 hm.le
      _ = ((m.num.natAbs : ℕ) : ℚ) := hcast.symm
      _ < _ := ha2
  -- lower bound
  have hB : (2 : ℚ) ^ ((Nat.log2 m.num.natAbs : ℤ) - (Nat.log2 m.den : ℤ) - 1) ≤ m := by
    have e1 : ((Nat.log2 m.num.natAbs : ℤ) - (Nat.log2 m.den : ℤ) - 1) =
        ((Nat.log2 m.num.natAbs : ℕ) : ℤ) - ((Nat.log2 m.den + 1 : ℕ) : ℤ) := by
      push_cast; ring
    rw [e1, zpow_sub₀ (two_ne_zero), zpow_natCast, zpow_natCast, div_le_iff₀ hpb]
    calc (2 : ℚ) ^ (Nat.log2 m.num.natAbs : ℕ) ≤ ((m.num.natAbs : ℕ) : ℚ) := ha1
      _ = m * (m.den : ℚ) := hcast
      _ ≤ m * 2 ^ (Nat.log2 m.den + 1 : ℕ) := mul_le_mul_of_nonneg_left hb2.le hm.le
  unfold binadeExponent
  rw [twoPow_eq]
  split
  · next h => exact ⟨h, hA⟩
  · next h =>
    refine ⟨hB, ?_⟩
    rw [sub_add_cancel]
    exact not_le.mp h

theorem binadeExponent_eq (m : ℚ) (e : ℤ) (h1 : (2 : ℚ) ^ e ≤ m) (h2 : m < 2 ^ (e + 1)) :
    binadeExponent m = e := by
  have hm : 0 < m := lt_of_lt_of_le (by positivity) h1
  obtain ⟨h3, h4⟩ := binadeExponent_spec m hm
  exact binade_unique m e _ h1 h2 h3 h4

theorem roundHalfEven_of_near (q : ℚ) (n : ℤ) (h : |q - n| < 1 / 2) : roundHalfEven q = n := by
  rw [abs_lt] at h
  obtain ⟨hl, hr⟩ := h
  unfold roundHalfEven
  rcases le_or_lt (n : ℚ) q with hq | hq
  · have hf : ⌊q⌋ = n := Int.floor_eq_iff.mpr ⟨hq, by linarith⟩
    rw [hf, if_pos hr]
  · have hf : ⌊q⌋ = n - 1 := Int.floor_eq_iff.mpr ⟨by push_cast; linarith, by push_cast; linarith⟩
    rw [hf]
    have h1 : ¬ (q - ((n - 1 : ℤ) : ℚ) < 1 / 2) := by push_cast; linarith
    have h2 : 1 / 2 < q - ((n - 1 : ℤ) : ℚ) := by push_cast; linarith
    rw [if_neg h1, if_pos h2]
    ring

theorem round_underflow (s : Bool) (m : ℚ) (h : m ≤ 2 ^ (-1075 : ℤ)) :
    round s m = finite s 0 := by
  unfold round
  rw [twoPow_eq, if_pos h]

theorem round_eq (s : Bool) (m r : ℚ) (e u n : ℤ)
    (h1 : (2 : ℚ) ^ e ≤ m) (h2 : m < 2 ^ (e + 1))
    (hlo : (2 : ℚ) ^ (-1075 : ℤ) < m) (hhi : m < 2 ^ (1024 : ℤ))
    (hu : max (e - 52) (-1074) = u) (hn : |m / 2 ^ u - n| < 1 / 2)
    (hr : (n : ℚ) * 2 ^ u = r) (hfin : r < 2 ^ (1024 : ℤ)) :
    round s m = finite s r := by
  have hulp : ulpExponent m = u := by
    unfold ulpExponent
    rw [binadeExponent_eq m e h1 h2, hu]
  unfold round
  rw [hulp, twoPow_eq, twoPow_eq, twoPow_eq, if_neg (not_le.mpr hlo), if_neg (not_le.mpr hhi),
    roundHalfEven_of_near _ n hn, hr, if_pos hfin]

theorem round_two_zpow (s : Bool) (e : ℤ) (h1 : -1074 ≤ e) (h2 : e < 1024) :
    round s ((2 : ℚ) ^ e) = finite s ((2 : ℚ) ^ e) := by
  have hpos : (0 : ℚ) < 2 := by norm_num
  have hone : (1 : ℚ) < 2 := by norm_num
  have hk : 0 ≤ e - max (e - 52) (-1074) := by
    rcases le_total (e - 52) (-1074) with h | h
    · rw [max_eq_right h]; omega
    · rw [max_eq_left h]; omega
  refine round_eq s _ _ e (max (e - 52) (-1074)) ((2 : ℤ) ^ (e - max (e - 52) (-1074)).toNat)
    le_rfl ((zpow_lt_zpow_iff_right₀ hone).mpr (by omega))
    ((zpow_lt_zpow_iff_right₀ hone).mpr (by omega))
    ((zpow_lt_zpow_iff_right₀ hone).mpr h2) rfl ?_ ?_
    ((zpow_lt_zpow_iff_right₀ hone).mpr h2)
  · have : ((2 : ℚ) ^ e / 2 ^ max (e - 52) (-1074)) =
        (((2 : ℤ) ^ (e - max (e - 52) (-1074)).toNat : ℤ) : ℚ) := by
      rw [← zpow_sub₀ (two_ne_zero), Int.cast_pow, Int.cast_ofNat, ← zpow_natCast,
        Int.toNat_of_nonneg hk]
    rw [this, sub_self, abs_zero]
    norm_num
  · rw [Int.cast_pow, Int.cast_ofNat, ← zpow_natCast, Int.toNat_of_nonneg hk,
      ← zpow_add₀ (two_ne_zero)]
    congr 1
    ring

theorem mul_finite (s t : Bool) (m n : ℚ) :
    mul (finite s m) (finite t n) = round (xor s t) (m * n) := rfl

theorem div_finite (s t : Bool) (m n : ℚ) (hn : n ≠ 0) :
    div (finite s m) (finite t n) = round (xor s t) (m / n) := by
  simp [div, hn]

theorem add_finite_zero (s t : Bool) (m n : ℚ) (h : signed s m + signed t n = 0) :
    add (finite s m) (finite t n) = finite (s && t) 0 := by
  simp [add, h]

theorem add_finite_pos (s t : Bool) (m n : ℚ) (h : 0 < signed s m + signed t n) :
    add (finite s m) (finite t n) = round false (signed s m + signed t n) := by
  simp [add, h.ne.symm, not_lt.mpr h.le, abs_of_pos h]

theorem add_zero_zero :
    add (finite false 0) (finite false 0) = finite false 0 := by
  simp [add, signed]

theorem round_zero (s : Bool) : round s 0 = finite s 0 :=
  round_underflow s 0 (by positivity)

theorem round_two (s : Bool) : round s 2 = finite s 2 := by
  have h := round_two_zpow s 1 (by norm_num) (by norm_num)
  rwa [zpow_one] at h

end Binary64

theorem step64_accelation (pow : Binary64 → Binary64 → Binary64) (b : InertialBody Binary64) :
    (b.step64 pow).2.currentStatus.accelation =
      Binary64.div (Binary64.add
          (Binary64.mul b.elasticity
            (Binary64.copysign (pow (Binary64.abs b.currentStatus.getDistance64)
              b.distanceExponent) b.currentStatus.getDistance64))
          (Binary64.mul b.friction b.currentStatus.velocity)) b.mass := rfl

section Claims

variable {α : Type} [LinearOrderedField α]

/-- C1. Away from the target (`d = target - position` non-zero) and with a
non-zero mass, `InertialBody::step()` records the acceleration
`(elasticity * sign(d) * |d|^distanceExponent + friction * velocity) / mass`,
adds it to the velocity and adds the new velocity to the position.  `pow` is
any power function that is non-negative on a non-negative base. -/
theorem C1_step_follows_spring_damper_law (pow : α → α → α)
    (hpow : ∀ x y : α, 0 ≤ x → 0 ≤ pow x y)
    (b : InertialBody α) (_hm : b.mass ≠ 0)
    (hd : b.currentStatus.target - b.currentStatus.position ≠ 0) :
    (b.step pow).2.currentStatus.accelation = specNetAcceleration pow b ∧
    (b.step pow).2.currentStatus.velocity =
      b.currentStatus.velocity + specNetAcceleration pow b ∧
    (b.step pow).2.currentStatus.position =
      b.currentStatus.position + (b.step pow).2.currentStatus.velocity := by
  have hs := spring_eq_spec pow b hpow hd
  have ha : (b.step pow).2.currentStatus.accelation = specNetAcceleration pow b := by
    rw [step_accelation, hs]
    rfl
  refine ⟨ha, ?_, rfl⟩
  rw [← ha]
  rfl

/-- C1, the worked example of the spec: from `target = 10`, `position = 0`,
`velocity = 0` with all parameters `0.5` and exponent `1`, the first step gives
acceleration `10`, velocity `10` and position `10`. -/
theorem C1_worked_example_witness :
    (workedExample : InertialBody ℝ).mass ≠ 0 ∧
    (workedExample : InertialBody ℝ).currentStatus.target -
      (workedExample : InertialBody ℝ).currentStatus.position ≠ 0 ∧
    ((workedExample : InertialBody ℝ).step Real.rpow).2.currentStatus.accelation = 10 ∧
    ((workedExample : InertialBody ℝ).step Real.rpow).2.currentStatus.velocity = 10 ∧
    ((workedExample : InertialBody ℝ).step Real.rpow).2.currentStatus.position = 10 := by
  have hm : (workedExample : InertialBody ℝ).mass ≠ 0 := by
    norm_num [workedExample]
  have hd : (workedExample : InertialBody ℝ).currentStatus.target -
      (workedExample : InertialBody ℝ).currentStatus.position ≠ 0 := by
    norm_num [workedExample, InertialState.construct]
  have hspec : specNetAcceleration Real.rpow (workedExample : InertialBody ℝ) = 10 := by
    norm_num [specNetAcceleration, specSign, workedExample, InertialState.construct]
  obtain ⟨ha, hv, hp⟩ :=
    C1_step_follows_spring_damper_law Real.rpow rpow_nonneg_base workedExample hm hd
  refine ⟨hm, hd, ?_, ?_, ?_⟩
  · rw [ha, hspec]
  · rw [hv, hspec]
    norm_num [workedExample, InertialState.construct]
  · rw [hp, hv, hspec]
    norm_num [workedExample, InertialState.construct]

/-- C2, counterexample.  The default body (`distanceExponent = 0`, all other
parameters `0.5`) rests at its target `0` with velocity `0`, and its mass is not
`0`; one step records the acceleration `1` (`pow(0, 0)` is `1`, so the spring
term is the elasticity) and moves the position and the velocity to `1`. -/
theorem C2_counterexample_default_body :
    (InertialBody.constructDefault : InertialBody ℝ).mass ≠ 0 ∧
    (InertialBody.constructDefault : InertialBody ℝ).currentStatus.position =
      (InertialBody.constructDefault : InertialBody ℝ).currentStatus.target ∧
    (InertialBody.constructDefault : InertialBody ℝ).currentStatus.velocity = 0 ∧
    ((InertialBody.constructDefault : InertialBody ℝ).step Real.rpow).2.currentStatus.accelation
      = 1 ∧
    ¬ (((InertialBody.constructDefault : InertialBody ℝ).step Real.rpow).2.currentStatus.accelation
        = 0 ∧
      ((InertialBody.constructDefault : InertialBody ℝ).step Real.rpow).2.currentStatus.position
        = (InertialBody.constructDefault : InertialBody ℝ).currentStatus.position ∧
      ((InertialBody.constructDefault : InertialBody ℝ).step Real.rpow).2.currentStatus.velocity
        = (InertialBody.constructDefault : InertialBody ℝ).currentStatus.velocity) := by
  have ha : ((InertialBody.constructDefault : InertialBody ℝ).step
      Real.rpow).2.currentStatus.accelation = 1 := by
    rw [step_accelation, spring_at_target _ _ rfl]
    norm_num [InertialBody.constructDefault, InertialBody.construct, InertialBody.damping,
      InertialState.constructDefault, InertialState.construct]
  refine ⟨?_, rfl, rfl, ha, ?_⟩
  · norm_num [InertialBody.constructDefault, InertialBody.construct]
  · rintro ⟨h0, -, -⟩
    rw [ha] at h0
    exact one_ne_zero h0

/-- C2, amended.  A body with non-zero mass that rests at its target
(`position == target`, `velocity == 0`): with `distanceExponent > 0` one step
records the acceleration `0` and leaves position and velocity unchanged; with
`distanceExponent == 0` the recorded acceleration is `elasticity / mass`.
`pow` is any power function with `pow(0, y) = 0` for `y > 0` and
`pow(0, 0) = 1`. -/
theorem C2_rest_at_target (pow : α → α → α)
    (hpow_base : ∀ y : α, 0 < y → pow 0 y = 0) (hpow_zero : pow 0 0 = 1)
    (b : InertialBody α) (_hm : b.mass ≠ 0)
    (hp : b.currentStatus.position = b.currentStatus.target)
    (hv : b.currentStatus.velocity = 0) :
    (0 < b.distanceExponent →
      (b.step pow).2.currentStatus.accelation = 0 ∧
      (b.step pow).2.currentStatus.position = b.currentStatus.position ∧
      (b.step pow).2.currentStatus.velocity = b.currentStatus.velocity) ∧
    (b.distanceExponent = 0 →
      (b.step pow).2.currentStatus.accelation = b.elasticity / b.mass) := by
  constructor
  · intro hx
    have ha : (b.spring pow + b.damping) / b.mass = 0 := by
      rw [spring_at_target pow b hp, hpow_base _ hx]
      simp [InertialBody.damping, hv]
    rw [step_accelation, step_position, step_velocity, ha]
    simp [hv]
  · intro hx
    rw [step_accelation, spring_at_target pow b hp, hx, hpow_zero]
    simp [InertialBody.damping, hv]

/-- C2, amended, at a concrete input: exponent `2`, all other parameters `0.5`,
at rest at the target `3`. -/
theorem C2_rest_at_target_witness :
    (bodyAt 0.5 0.5 0.5 2 3 3 0 : InertialBody ℝ).mass ≠ 0 ∧
    ((bodyAt 0.5 0.5 0.5 2 3 3 0 : InertialBody ℝ).step Real.rpow).2.currentStatus.accelation
      = 0 ∧
    ((bodyAt 0.5 0.5 0.5 2 3 3 0 : InertialBody ℝ).step Real.rpow).2.currentStatus.position
      = 3 ∧
    ((bodyAt 0.5 0.5 0.5 2 3 3 0 : InertialBody ℝ).step Real.rpow).2.currentStatus.velocity
      = 0 := by
  have hm : (bodyAt 0.5 0.5 0.5 2 3 3 0 : InertialBody ℝ).mass ≠ 0 := by
    norm_num [bodyAt]
  have h := (C2_rest_at_target Real.rpow rpow_base_zero (rpow_exponent_zero 0)
    (bodyAt 0.5 0.5 0.5 2 3 3 0) hm rfl rfl).1 (by norm_num [bodyAt])
  exact ⟨hm, h.1, h.2.1, h.2.2⟩

/-- C3. Semi-implicit Euler ordering: `InertialState::step(a)` records `a` as
the acceleration, adds it to the velocity, adds the new velocity (not the old
one) to the position, and leaves the target unchanged. -/
theorem C3_state_step_semi_implicit (s : InertialState α) (a : α) :
    (s.step a).accelation = a ∧
    (s.step a).velocity = s.velocity + a ∧
    (s.step a).position = s.position + (s.velocity + a) ∧
    (s.step a).target = s.target :=
  ⟨rfl, rfl, rfl, rfl⟩

/-- C4. Reset correctness: after `resetMovement()` the state of any body has
position, velocity and acceleration equal to `0`. -/
theorem C4_resetMovement_zeroes (b : InertialBody α) :
    b.resetMovement.currentStatus.position = 0 ∧
    b.resetMovement.currentStatus.velocity = 0 ∧
    b.resetMovement.currentStatus.accelation = 0 :=
  ⟨rfl, rfl, rfl⟩

/-- C5. Linear-spring reduction: with `distanceExponent == 1` the spring term
of `step()` is `elasticity * (target - position)` for every sign of the
distance, zero included, and the recorded acceleration is
`(elasticity * (target - position) + friction * velocity) / mass`.  `pow` is
any power function with `pow(x, 1) = x` on a non-negative base. -/
theorem C5_linear_spring_reduction (pow : α → α → α)
    (hpow_one : ∀ x : α, 0 ≤ x → pow x 1 = x)
    (b : InertialBody α) (hx : b.distanceExponent = 1) :
    b.spring pow = b.elasticity * (b.currentStatus.target - b.currentStatus.position) ∧
    (b.step pow).2.currentStatus.accelation =
      (b.elasticity * (b.currentStatus.target - b.currentStatus.position)
        + b.friction * b.currentStatus.velocity) / b.mass := by
  have hs : b.spring pow =
      b.elasticity * (b.currentStatus.target - b.currentStatus.position) := by
    unfold InertialBody.spring InertialState.getDistance
    simp only []
    rw [hx, hpow_one _ (abs_nonneg _), copysign_abs_self]
  refine ⟨hs, ?_⟩
  rw [step_accelation, hs]
  rfl

/-- C5 at concrete inputs on both sides of the target: exponent `1`,
elasticity `0.5`, target `10`, position `14` (distance `-4`) gives the spring
term `-2` and, with friction `0.25`, velocity `2` and mass `0.5`, the
acceleration `-3`. -/
theorem C5_linear_spring_reduction_witness :
    (bodyAt 0.5 0.25 0.5 1 10 14 2 : InertialBody ℝ).distanceExponent = 1 ∧
    (bodyAt 0.5 0.25 0.5 1 10 14 2 : InertialBody ℝ).spring Real.rpow = -2 ∧
    ((bodyAt 0.5 0.25 0.5 1 10 14 2 : InertialBody ℝ).step Real.rpow).2.currentStatus.accelation
      = -3 := by
  obtain ⟨hs, ha⟩ := C5_linear_spring_reduction Real.rpow
    (fun x _ => rpow_exponent_one x) (bodyAt 0.5 0.25 0.5 1 10 14 2) rfl
  refine ⟨rfl, ?_, ?_⟩
  · rw [hs]
    norm_num [bodyAt, InertialState.construct]
  · rw [ha]
    norm_num [bodyAt, InertialState.construct]

/-- C6. Signed-power symmetry: two bodies with the same elasticity and the same
exponent, the same target `T`, one at position `T - k` and one at `T + k` with
`k > 0`, have spring terms that are exact negations of each other, for every
exponent and every power function; when both also have the same friction and
mass and velocity `0`, the accelerations recorded by `step()` are negations of
each other. -/
theorem C6_signed_power_symmetry (pow : α → α → α) (T k : α) (hk : 0 < k)
    (b1 b2 : InertialBody α)
    (he : b1.elasticity = b2.elasticity)
    (hx : b1.distanceExponent = b2.distanceExponent)
    (ht1 : b1.currentStatus.target = T) (ht2 : b2.currentStatus.target = T)
    (hp1 : b1.currentStatus.position = T - k)
    (hp2 : b2.currentStatus.position = T + k) :
    b1.spring pow = -(b2.spring pow) ∧
    (b1.mass = b2.mass →
      b1.currentStatus.velocity = 0 → b2.currentStatus.velocity = 0 →
      (b1.step pow).2.currentStatus.accelation =
        -((b2.step pow).2.currentStatus.accelation)) := by
  have hd1 : b1.currentStatus.getDistance = k := by
    simp [InertialState.getDistance, ht1, hp1]
  have hd2 : b2.currentStatus.getDistance = -k := by
    simp [InertialState.getDistance, ht2, hp2]
  have hs : b1.spring pow = -(b2.spring pow) := by
    unfold InertialBody.spring
    simp only []
    rw [hd1, hd2, abs_neg, he, hx, copysign_of_nonneg _ _ hk.le,
      copysign_of_neg _ _ (neg_neg_of_pos hk), mul_neg, neg_neg]
  refine ⟨hs, ?_⟩
  intro hm hv1 hv2
  rw [step_accelation, step_accelation, hs, hm]
  simp only [InertialBody.damping, hv1, hv2, mul_zero, add_zero]
  rw [neg_div]

/-- C6 at a concrete input: target `5`, `k = 2`, exponent `3`, elasticity
`0.5`: the spring terms at positions `3` and `7` are `4` and `-4`. -/
theorem C6_signed_power_symmetry_witness :
    (0 : ℝ) < 2 ∧
    (bodyAt 0.5 0.5 0.5 3 5 (5 - 2) 0 : InertialBody ℝ).spring Real.rpow =
      -((bodyAt 0.5 0.5 0.5 3 5 (5 + 2) 0 : InertialBody ℝ).spring Real.rpow) ∧
    ((bodyAt 0.5 0.5 0.5 3 5 (5 - 2) 0 : InertialBody ℝ).step Real.rpow).2.currentStatus.accelation
      = -(((bodyAt 0.5 0.5 0.5 3 5 (5 + 2) 0 : InertialBody ℝ).step
          Real.rpow).2.currentStatus.accelation) := by
  have h := C6_signed_power_symmetry Real.rpow (5 : ℝ) 2 (by norm_num)
    (bodyAt 0.5 0.5 0.5 3 5 (5 - 2) 0) (bodyAt 0.5 0.5 0.5 3 5 (5 + 2) 0)
    rfl rfl rfl rfl rfl rfl
  exact ⟨by norm_num, h.1, h.2 rfl rfl rfl⟩

/-- C7. Constant-pull mode: with `distanceExponent == 0` the spring term of
`step()` is `elasticity * sign(d)` whatever the magnitude of the non-zero
distance `d = target - position`: `+elasticity` for `d > 0`, `-elasticity` for
`d < 0`, and equal for any two bodies of the same elasticity whose distances
have the same sign.  `pow` is any power function with `pow(x, 0) = 1`. -/
theorem C7_constant_pull (pow : α → α → α) (hpow_zero : ∀ x : α, pow x 0 = 1)
    (b : InertialBody α) (hx : b.distanceExponent = 0) :
    (0 < b.currentStatus.target - b.currentStatus.position →
      b.spring pow = b.elasticity) ∧
    (b.currentStatus.target - b.currentStatus.position < 0 →
      b.spring pow = -b.elasticity) ∧
    (b.currentStatus.target - b.currentStatus.position ≠ 0 →
      b.spring pow =
        b.elasticity * specSign (b.currentStatus.target - b.currentStatus.position)) ∧
    (∀ b2 : InertialBody α, b2.distanceExponent = 0 → b2.elasticity = b.elasticity →
      b.currentStatus.target - b.currentStatus.position ≠ 0 →
      b2.currentStatus.target - b2.currentStatus.position ≠ 0 →
      specSign (b2.currentStatus.target - b2.currentStatus.position) =
        specSign (b.currentStatus.target - b.currentStatus.position) →
      b2.spring pow = b.spring pow) := by
  have key : ∀ c : InertialBody α, c.distanceExponent = 0 →
      c.currentStatus.target - c.currentStatus.position ≠ 0 →
      c.spring pow =
        c.elasticity * specSign (c.currentStatus.target - c.currentStatus.position) := by
    intro c hc hd
    unfold InertialBody.spring InertialState.getDistance
    simp only []
    rw [hc, hpow_zero, copysign_eq_specSign_mul _ _ zero_le_one hd, mul_one]
  refine ⟨fun hd => ?_, fun hd => ?_, key b hx, ?_⟩
  · rw [key b hx hd.ne.symm]
    simp [specSign, hd]
  · rw [key b hx hd.ne]
    simp [specSign, hd, not_lt.mpr hd.le]
  · intro b2 hx2 he hd hd2 hsign
    rw [key b hx hd, key b2 hx2 hd2, he, hsign]

/-- C7 at a concrete input: exponent `0`, elasticity `0.5`, target `10`: at
position `1` (distance `9`) the spring term is `0.5`, and a body at position
`9.5` (distance `0.5`) has the same spring term. -/
theorem C7_constant_pull_witness :
    (bodyAt 0.5 0.5 0.5 0 10 1 0 : InertialBody ℝ).distanceExponent = 0 ∧
    (bodyAt 0.5 0.5 0.5 0 10 1 0 : InertialBody ℝ).spring Real.rpow = 0.5 ∧
    (bodyAt 0.5 0.5 0.5 0 10 9.5 0 : InertialBody ℝ).spring Real.rpow =
      (bodyAt 0.5 0.5 0.5 0 10 1 0 : InertialBody ℝ).spring Real.rpow := by
  obtain ⟨hpos, -, -, hsame⟩ := C7_constant_pull Real.rpow rpow_exponent_zero
    (bodyAt 0.5 0.5 0.5 0 10 1 0) rfl
  refine ⟨rfl, ?_, ?_⟩
  · rw [hpos (by norm_num [bodyAt, InertialState.construct])]
    rfl
  · refine hsame (bodyAt 0.5 0.5 0.5 0 10 9.5 0) rfl rfl ?_ ?_ ?_
    · norm_num [bodyAt, InertialState.construct]
    · norm_num [bodyAt, InertialState.construct]
    · norm_num [bodyAt, InertialState.construct, specSign]

/-- C8. Construction: `InertialBody()` has elasticity, friction and mass `0.5`
and exponent `0`; `InertialBody(e, f, m, x)` reports `e`, `f`, `m`, `x` from its
four getters; in both cases target, position, velocity and acceleration of the
initial state are `0`. -/
theorem C8_construction (e f m x : α) :
    ((InertialBody.constructDefault : InertialBody α).getElasticity = 0.5 ∧
      (InertialBody.constructDefault : InertialBody α).getFriction = 0.5 ∧
      (InertialBody.constructDefault : InertialBody α).getMass = 0.5 ∧
      (InertialBody.constructDefault : InertialBody α).getDistanceExponent = 0) ∧
    ((InertialBody.construct e f m x).getElasticity = e ∧
      (InertialBody.construct e f m x).getFriction = f ∧
      (InertialBody.construct e f m x).getMass = m ∧
      (InertialBody.construct e f m x).getDistanceExponent = x) ∧
    ((InertialBody.constructDefault : InertialBody α).getCurrentStatus.target = 0 ∧
      (InertialBody.constructDefault : InertialBody α).getCurrentStatus.position = 0 ∧
      (InertialBody.constructDefault : InertialBody α).getCurrentStatus.velocity = 0 ∧
      (InertialBody.constructDefault : InertialBody α).getCurrentStatus.accelation = 0) ∧
    ((InertialBody.construct e f m x).getCurrentStatus.target = 0 ∧
      (InertialBody.construct e f m x).getCurrentStatus.position = 0 ∧
      (InertialBody.construct e f m x).getCurrentStatus.velocity = 0 ∧
      (InertialBody.construct e f m x).getCurrentStatus.accelation = 0) :=
  ⟨⟨rfl, rfl, rfl, rfl⟩, ⟨rfl, rfl, rfl, rfl⟩, ⟨rfl, rfl, rfl, rfl⟩, ⟨rfl, rfl, rfl, rfl⟩⟩

/-- C9. Parameter accessors are pure storage: after each of the four setters,
called with any value `v`, the matching getter returns `v`, the other three
parameters and the kinematic state are unchanged, and the acceleration recorded
by the next `step()` is the stepping formula with `v` in the place of that
parameter. -/
theorem C9_accessors_pure_storage (pow : α → α → α) (b : InertialBody α) (v : α) :
    ((b.setElasticity v).getElasticity = v ∧
      (b.setElasticity v).getFriction = b.getFriction ∧
      (b.setElasticity v).getMass = b.getMass ∧
      (b.setElasticity v).getDistanceExponent = b.getDistanceExponent ∧
      (b.setElasticity v).getCurrentStatus = b.getCurrentStatus ∧
      ((b.setElasticity v).step pow).2.currentStatus.accelation =
        (v * copysign (pow |b.currentStatus.getDistance| b.distanceExponent)
              b.currentStatus.getDistance
          + b.friction * b.currentStatus.velocity) / b.mass) ∧
    ((b.setFriction v).getFriction = v ∧
      (b.setFriction v).getElasticity = b.getElasticity ∧
      (b.setFriction v).getMass = b.getMass ∧
      (b.setFriction v).getDistanceExponent = b.getDistanceExponent ∧
      (b.setFriction v).getCurrentStatus = b.getCurrentStatus ∧
      ((b.setFriction v).step pow).2.currentStatus.accelation =
        (b.elasticity * copysign (pow |b.currentStatus.getDistance| b.distanceExponent)
              b.currentStatus.getDistance
          + v * b.currentStatus.velocity) / b.mass) ∧
    ((b.setMass v).getMass = v ∧
      (b.setMass v).getElasticity = b.getElasticity ∧
      (b.setMass v).getFriction = b.getFriction ∧
      (b.setMass v).getDistanceExponent = b.getDistanceExponent ∧
      (b.setMass v).getCurrentStatus = b.getCurrentStatus ∧
      ((b.setMass v).step pow).2.currentStatus.accelation =
        (b.elasticity * copysign (pow |b.currentStatus.getDistance| b.distanceExponent)
              b.currentStatus.getDistance
          + b.friction * b.currentStatus.velocity) / v) ∧
    ((b.setDistanceExponent v).getDistanceExponent = v ∧
      (b.setDistanceExponent v).getElasticity = b.getElasticity ∧
      (b.setDistanceExponent v).getFriction = b.getFriction ∧
      (b.setDistanceExponent v).getMass = b.getMass ∧
      (b.setDistanceExponent v).getCurrentStatus = b.getCurrentStatus ∧
      ((b.setDistanceExponent v).step pow).2.currentStatus.accelation =
        (b.elasticity * copysign (pow |b.currentStatus.getDistance| v)
              b.currentStatus.getDistance
          + b.friction * b.currentStatus.velocity) / b.mass) :=
  ⟨⟨rfl, rfl, rfl, rfl, rfl, rfl⟩, ⟨rfl, rfl, rfl, rfl, rfl, rfl⟩,
    ⟨rfl, rfl, rfl, rfl, rfl, rfl⟩, ⟨rfl, rfl, rfl, rfl, rfl, rfl⟩⟩

/-- C10. Frame of step: `InertialBody::step()` leaves the target and the four
parameters elasticity, friction, mass and distanceExponent unchanged; the only
fields it writes are position, velocity and acceleration. -/
theorem C10_step_frame (pow : α → α → α) (b : InertialBody α) :
    (b.step pow).2.currentStatus.target = b.currentStatus.target ∧
    (b.step pow).2.elasticity = b.elasticity ∧
    (b.step pow).2.friction = b.friction ∧
    (b.step pow).2.mass = b.mass ∧
    (b.step pow).2.distanceExponent = b.distanceExponent ∧
    (b.step pow).2 =
      { b with currentStatus :=
          { b.currentStatus with
            position := (b.step pow).2.currentStatus.position,
            velocity := (b.step pow).2.currentStatus.velocity,
            accelation := (b.step pow).2.currentStatus.accelation } } :=
  ⟨rfl, rfl, rfl, rfl, rfl, rfl⟩

/-- C11. `step()` returns the post-step state: the returned value equals, as a
whole and field by field, what `getCurrentStatus()` returns right after the
call.  `getCurrentStatus()` is a `const` member: it is a function of the body
and has no body of its own to return, so two reads in a row agree. -/
theorem C11_step_returns_post_state (pow : α → α → α) (b : InertialBody α) :
    (b.step pow).1 = (b.step pow).2.getCurrentStatus ∧
    (b.step pow).1.target = (b.step pow).2.getCurrentStatus.target ∧
    (b.step pow).1.position = (b.step pow).2.getCurrentStatus.position ∧
    (b.step pow).1.velocity = (b.step pow).2.getCurrentStatus.velocity ∧
    (b.step pow).1.accelation = (b.step pow).2.getCurrentStatus.accelation ∧
    b.getCurrentStatus = b.currentStatus :=
  ⟨rfl, rfl, rfl, rfl, rfl, rfl⟩

/-- C12. Reset affects only position, velocity and acceleration: for every body
the class can hold (constructed with any arguments, then any finite sequence of
`resetMovement()`, `step()` and setter calls), after `resetMovement()` the target
is the same as before the call and so are the four parameters.
`InertialState::reset()` does assign `.0` to the target; the target is kept
because the target of such a body is `0` already. -/
theorem C12_resetMovement_keeps_target_and_parameters (pow : α → α → α) (e f m x : α)
    (cs : List (Call α)) :
    (runCalls pow cs (InertialBody.construct e f m x)).resetMovement.currentStatus.target =
      (runCalls pow cs (InertialBody.construct e f m x)).currentStatus.target ∧
    (runCalls pow cs (InertialBody.construct e f m x)).resetMovement.elasticity =
      (runCalls pow cs (InertialBody.construct e f m x)).elasticity ∧
    (runCalls pow cs (InertialBody.construct e f m x)).resetMovement.friction =
      (runCalls pow cs (InertialBody.construct e f m x)).friction ∧
    (runCalls pow cs (InertialBody.construct e f m x)).resetMovement.mass =
      (runCalls pow cs (InertialBody.construct e f m x)).mass ∧
    (runCalls pow cs (InertialBody.construct e f m x)).resetMovement.distanceExponent =
      (runCalls pow cs (InertialBody.construct e f m x)).distanceExponent := by
  refine ⟨?_, rfl, rfl, rfl, rfl⟩
  rw [runCalls_keeps_zero_target pow cs _ rfl]
  rfl

/-- C14. Acceleration is an output, never an input: two bodies with the same
parameters whose states agree on target, position and velocity give the same
result of `step()` (returned state and body after the call), whatever their
stored accelerations. -/
theorem C14_stored_acceleration_ignored (pow : α → α → α) (b1 b2 : InertialBody α)
    (he : b1.elasticity = b2.elasticity) (hf : b1.friction = b2.friction)
    (hm : b1.mass = b2.mass) (hx : b1.distanceExponent = b2.distanceExponent)
    (ht : b1.currentStatus.target = b2.currentStatus.target)
    (hp : b1.currentStatus.position = b2.currentStatus.position)
    (hv : b1.currentStatus.velocity = b2.currentStatus.velocity) :
    b1.step pow = b2.step pow := by
  obtain ⟨⟨t1, p1, v1, a1⟩, e1, f1, m1, x1⟩ := b1
  obtain ⟨⟨t2, p2, v2, a2⟩, e2, f2, m2, x2⟩ := b2
  simp only at he hf hm hx ht hp hv
  subst he hf hm hx ht hp hv
  rfl

/-- C14 at a concrete input: the worked example with stored acceleration `0`
and with stored acceleration `7` step to the same state. -/
theorem C14_stored_acceleration_ignored_witness :
    (withAccelation (workedExample : InertialBody ℝ) 7).currentStatus.accelation ≠
      (workedExample : InertialBody ℝ).currentStatus.accelation ∧
    (withAccelation (workedExample : InertialBody ℝ) 7).step Real.rpow =
      (workedExample : InertialBody ℝ).step Real.rpow := by
  refine ⟨?_, C14_stored_acceleration_ignored Real.rpow _ _ rfl rfl rfl rfl rfl rfl rfl⟩
  show (7 : ℝ) ≠ 0
  norm_num

/-- C13, the code at a failing input.  After `InertialBody b; b.step();
b.setElasticity(0);` the body has friction `0.5 > 0`, mass `0.5 > 0`, elasticity
`0` and velocity `1`.  The damping contribution `damping / mass` to the next
acceleration is `+1`, the sign of the velocity, and the next `step()` takes the
velocity from `1` to `2`: its magnitude grows. -/
theorem C13_damping_amplifies_at_input :
    (runCalls Real.rpow [Call.step, Call.setElasticity 0]
      (InertialBody.constructDefault : InertialBody ℝ)).friction = 0.5 ∧
    (runCalls Real.rpow [Call.step, Call.setElasticity 0]
      (InertialBody.constructDefault : InertialBody ℝ)).mass = 0.5 ∧
    (runCalls Real.rpow [Call.step, Call.setElasticity 0]
      (InertialBody.constructDefault : InertialBody ℝ)).elasticity = 0 ∧
    (runCalls Real.rpow [Call.step, Call.setElasticity 0]
      (InertialBody.constructDefault : InertialBody ℝ)).currentStatus.velocity = 1 ∧
    (runCalls Real.rpow [Call.step, Call.setElasticity 0]
      (InertialBody.constructDefault : InertialBody ℝ)).damping /
      (runCalls Real.rpow [Call.step, Call.setElasticity 0]
        (InertialBody.constructDefault : InertialBody ℝ)).mass = 1 ∧
    ((runCalls Real.rpow [Call.step, Call.setElasticity 0]
      (InertialBody.constructDefault : InertialBody ℝ)).step
        Real.rpow).2.currentStatus.accelation = 1 ∧
    ((runCalls Real.rpow [Call.step, Call.setElasticity 0]
      (InertialBody.constructDefault : InertialBody ℝ)).step
        Real.rpow).2.currentStatus.velocity = 2 := by
  have hv : (runCalls Real.rpow [Call.step, Call.setElasticity 0]
      (InertialBody.constructDefault : InertialBody ℝ)).currentStatus.velocity = 1 := by
    show (InertialBody.constructDefault.step Real.rpow).2.currentStatus.velocity = 1
    rw [step_velocity, spring_at_target _ _ rfl]
    norm_num [InertialBody.constructDefault, InertialBody.construct, InertialBody.damping,
      InertialState.constructDefault, InertialState.construct]
  have hf : (runCalls Real.rpow [Call.step, Call.setElasticity 0]
      (InertialBody.constructDefault : InertialBody ℝ)).friction = 0.5 := rfl
  have hm : (runCalls Real.rpow [Call.step, Call.setElasticity 0]
      (InertialBody.constructDefault : InertialBody ℝ)).mass = 0.5 := rfl
  have hs : (runCalls Real.rpow [Call.step, Call.setElasticity 0]
      (InertialBody.constructDefault : InertialBody ℝ)).spring Real.rpow = 0 := by
    show (0 : ℝ) * _ = 0
    exact zero_mul _
  have hd : (runCalls Real.rpow [Call.step, Call.setElasticity 0]
      (InertialBody.constructDefault : InertialBody ℝ)).damping = 0.5 := by
    unfold InertialBody.damping
    rw [hv, hf]
    norm_num
  refine ⟨hf, hm, rfl, hv, ?_, ?_, ?_⟩
  · rw [hd, hm]
    norm_num
  · rw [step_accelation, hs, hd, hm]
    norm_num
  · rw [step_velocity, hs, hd, hm, hv]
    norm_num

/-- C16. `step()` is not idempotent: on the worked example of the spec the first
step gives position `10` and velocity `10`, the second, with the target still
`10`, gives position `30` and velocity `20`, so stepping twice differs from
stepping once. -/
theorem C16_step_not_idempotent :
    (InertialBody.stepTimes Real.rpow 1
      (workedExample : InertialBody ℝ)).currentStatus.position = 10 ∧
    (InertialBody.stepTimes Real.rpow 1
      (workedExample : InertialBody ℝ)).currentStatus.velocity = 10 ∧
    (InertialBody.stepTimes Real.rpow 2
      (workedExample : InertialBody ℝ)).currentStatus.target = 10 ∧
    (InertialBody.stepTimes Real.rpow 2
      (workedExample : InertialBody ℝ)).currentStatus.position = 30 ∧
    (InertialBody.stepTimes Real.rpow 2
      (workedExample : InertialBody ℝ)).currentStatus.velocity = 20 ∧
    InertialBody.stepTimes Real.rpow 2 (workedExample : InertialBody ℝ) ≠
      InertialBody.stepTimes Real.rpow 1 (workedExample : InertialBody ℝ) := by
  have h1 : (InertialBody.stepTimes Real.rpow 1
      (workedExample : InertialBody ℝ)).currentStatus = InertialState.construct 10 10 10 10 := by
    norm_num [InertialBody.stepTimes, InertialBody.step, InertialBody.spring,
      InertialBody.damping, InertialState.step, InertialState.getDistance,
      InertialState.construct, copysign, workedExample]
  have h2 : (InertialBody.stepTimes Real.rpow 2
      (workedExample : InertialBody ℝ)).currentStatus = InertialState.construct 10 30 20 10 := by
    norm_num [InertialBody.stepTimes, InertialBody.step, InertialBody.spring,
      InertialBody.damping, InertialState.step, InertialState.getDistance,
      InertialState.construct, copysign, workedExample]
  refine ⟨by rw [h1]; rfl, by rw [h1]; rfl, by rw [h2]; rfl, by rw [h2]; rfl,
    by rw [h2]; rfl, ?_⟩
  intro h
  have hv : (InertialBody.stepTimes Real.rpow 2
      (workedExample : InertialBody ℝ)).currentStatus.velocity =
      (InertialBody.stepTimes Real.rpow 1
        (workedExample : InertialBody ℝ)).currentStatus.velocity := by rw [h]
  rw [h1, h2] at hv
  norm_num [InertialState.construct] at hv

/-- C17. Target is always `0` through the public C++ interface: after the
constructor, with any arguments, and any finite sequence of `resetMovement()`,
`step()` and the four parameter setters, the target of the state is `0`. -/
theorem C17_target_always_zero (pow : α → α → α) (e f m x : α) (cs : List (Call α)) :
    (runCalls pow cs (InertialBody.construct e f m x)).currentStatus.target = 0 ∧
    (runCalls pow cs (InertialBody.constructDefault : InertialBody α)).currentStatus.target
      = 0 :=
  ⟨runCalls_keeps_zero_target pow cs _ rfl, runCalls_keeps_zero_target pow cs _ rfl⟩

/-- C18, counterexample.  The freshly constructed body
`InertialBody(2^-600, 0.5, 2^600, 0)` has a mass that is not `0`, rests at its
target with velocity `0`, has `distanceExponent == 0` and an elasticity that is
not `0`.  In `double` arithmetic the quotient `2^-600 / 2^600` underflows to
`0`, so `step()` returns the state it started from: a fixed point with
`elasticity != 0`. -/
theorem C18_counterexample_underflow :
    underflowBody.elasticity = Binary64.finite false ((2 : ℚ) ^ (-600 : ℤ)) ∧
    (2 : ℚ) ^ (-600 : ℤ) ≠ 0 ∧
    underflowBody.mass = Binary64.finite false ((2 : ℚ) ^ (600 : ℤ)) ∧
    (2 : ℚ) ^ (600 : ℤ) ≠ 0 ∧
    underflowBody.distanceExponent = Binary64.finite false 0 ∧
    underflowBody.currentStatus.position = underflowBody.currentStatus.target ∧
    underflowBody.currentStatus.velocity = Binary64.finite false 0 ∧
    (underflowBody.step64 Binary64.powZeroExponent).1.accelation = Binary64.finite false 0 ∧
    (underflowBody.step64 Binary64.powZeroExponent).1.position =
      underflowBody.currentStatus.position ∧
    (underflowBody.step64 Binary64.powZeroExponent).1.velocity =
      underflowBody.currentStatus.velocity := by
  have hfix : (underflowBody.step64 Binary64.powZeroExponent).1 =
      underflowBody.currentStatus := by
    have hd : underflowBody.currentStatus.getDistance64 = Binary64.finite false 0 :=
      Binary64.add_finite_zero false true 0 0 (by simp [Binary64.signed])
    have hspring : Binary64.mul underflowBody.elasticity
        (Binary64.copysign (Binary64.powZeroExponent
          (Binary64.abs underflowBody.currentStatus.getDistance64)
          underflowBody.distanceExponent) underflowBody.currentStatus.getDistance64) =
        Binary64.finite false ((2 : ℚ) ^ (-600 : ℤ)) := by
      rw [hd]
      show Binary64.round false (Binary64.twoPow (-600) * 1) = _
      rw [Binary64.twoPow_eq, mul_one]
      exact Binary64.round_two_zpow false (-600) (by norm_num) (by norm_num)
    have hdamping : Binary64.mul underflowBody.friction underflowBody.currentStatus.velocity =
        Binary64.finite false 0 := by
      show Binary64.round false (1 / 2 * 0) = _
      rw [mul_zero]
      exact Binary64.round_zero false
    have hacc : Binary64.div (Binary64.add
        (Binary64.mul underflowBody.elasticity
          (Binary64.copysign (Binary64.powZeroExponent
            (Binary64.abs underflowBody.currentStatus.getDistance64)
            underflowBody.distanceExponent) underflowBody.currentStatus.getDistance64))
        (Binary64.mul underflowBody.friction underflowBody.currentStatus.velocity))
        underflowBody.mass = Binary64.finite false 0 := by
      rw [hspring, hdamping]
      have hp : (0 : ℚ) < 2 ^ (-600 : ℤ) := by positivity
      rw [Binary64.add_finite_pos false false _ 0 (by simpa [Binary64.signed] using hp)]
      have e1 : Binary64.signed false ((2 : ℚ) ^ (-600 : ℤ)) + Binary64.signed false 0 =
          (2 : ℚ) ^ (-600 : ℤ) := by simp [Binary64.signed]
      rw [e1, Binary64.round_two_zpow false (-600) (by norm_num) (by norm_num)]
      show Binary64.div (Binary64.finite false ((2 : ℚ) ^ (-600 : ℤ)))
        (Binary64.finite false (Binary64.twoPow 600)) = _
      rw [Binary64.twoPow_eq, Binary64.div_finite _ _ _ _ (by positivity),
        ← zpow_sub₀ (two_ne_zero)]
      exact Binary64.round_underflow _ _
        ((zpow_le_zpow_iff_right₀ (by norm_num : (1 : ℚ) < 2)).mpr (by norm_num))
    show underflowBody.currentStatus.step64 _ = _
    rw [hacc]
    show InertialState.mk _ (Binary64.add (Binary64.finite false 0)
      (Binary64.add (Binary64.finite false 0) (Binary64.finite false 0)))
      (Binary64.add (Binary64.finite false 0) (Binary64.finite false 0)) _ = _
    rw [Binary64.add_zero_zero, Binary64.add_zero_zero]
    rfl
  have hel : underflowBody.elasticity = Binary64.finite false ((2 : ℚ) ^ (-600 : ℤ)) := by
    show Binary64.finite false (Binary64.twoPow (-600)) = _
    rw [Binary64.twoPow_eq]
  have hma : underflowBody.mass = Binary64.finite false ((2 : ℚ) ^ (600 : ℤ)) := by
    show Binary64.finite false (Binary64.twoPow 600) = _
    rw [Binary64.twoPow_eq]
  refine ⟨hel, by positivity, hma, by positivity, rfl, rfl, rfl, ?_, ?_, ?_⟩
  · rw [hfix]; rfl
  · rw [hfix]
  · rw [hfix]

/-- C18, amended.  Rest at the target (`position == target`, `velocity == 0`,
mass not `0`): with `distanceExponent > 0` the state returned by `step()` has
acceleration `0` and the same position and velocity; with
`distanceExponent == 0` the recorded acceleration is `elasticity / mass`, the
returned state has the same position and velocity exactly when that recorded
acceleration is `0`, and it has them whenever `elasticity == 0`. -/
theorem C18_rest_fixed_point (pow : α → α → α)
    (hpow_base : ∀ y : α, 0 < y → pow 0 y = 0) (hpow_zero : pow 0 0 = 1)
    (b : InertialBody α) (_hm : b.mass ≠ 0)
    (hp : b.currentStatus.position = b.currentStatus.target)
    (hv : b.currentStatus.velocity = 0) :
    (0 < b.distanceExponent →
      (b.step pow).1.accelation = 0 ∧
      (b.step pow).1.position = b.currentStatus.position ∧
      (b.step pow).1.velocity = b.currentStatus.velocity) ∧
    (b.distanceExponent = 0 →
      (b.step pow).1.accelation = b.elasticity / b.mass ∧
      (((b.step pow).1.position = b.currentStatus.position ∧
        (b.step pow).1.velocity = b.currentStatus.velocity) ↔
          (b.step pow).1.accelation = 0) ∧
      (b.elasticity = 0 →
        (b.step pow).1.position = b.currentStatus.position ∧
        (b.step pow).1.velocity = b.currentStatus.velocity)) := by
  have hd : b.damping = 0 := by simp [InertialBody.damping, hv]
  have ha : (b.step pow).1.accelation = (b.spring pow + b.damping) / b.mass := rfl
  have hvel : (b.step pow).1.velocity =
      b.currentStatus.velocity + (b.step pow).1.accelation := rfl
  have hpos : (b.step pow).1.position = b.currentStatus.position +
      (b.currentStatus.velocity + (b.step pow).1.accelation) := rfl
  have hfixed : (b.step pow).1.accelation = 0 →
      (b.step pow).1.position = b.currentStatus.position ∧
      (b.step pow).1.velocity = b.currentStatus.velocity := by
    intro h0
    rw [hpos, hvel, h0, hv]
    simp
  constructor
  · intro hx
    have h0 : (b.step pow).1.accelation = 0 := by
      rw [ha, spring_at_target pow b hp, hpow_base _ hx, hd]
      simp
    exact ⟨h0, hfixed h0⟩
  · intro hx
    have h1 : (b.step pow).1.accelation = b.elasticity / b.mass := by
      rw [ha, spring_at_target pow b hp, hx, hpow_zero, hd]
      simp
    refine ⟨h1, ⟨?_, hfixed⟩, ?_⟩
    · rintro ⟨-, h⟩
      rw [hvel, hv, zero_add] at h
      exact h
    · intro he
      apply hfixed
      rw [h1, he, zero_div]

/-- C18, amended, at concrete inputs, all at rest at the target `3` with
friction and mass `0.5`: exponent `1` and elasticity `0.5` is a fixed point
with acceleration `0`; exponent `0` and elasticity `0` is a fixed point;
exponent `0` and elasticity `0.5` records the acceleration `1`. -/
theorem C18_rest_fixed_point_witness :
    (bodyAt 0.5 0.5 0.5 1 3 3 0 : InertialBody ℝ).mass ≠ 0 ∧
    ((bodyAt 0.5 0.5 0.5 1 3 3 0 : InertialBody ℝ).step Real.rpow).1.accelation = 0 ∧
    ((bodyAt 0.5 0.5 0.5 1 3 3 0 : InertialBody ℝ).step Real.rpow).1.position = 3 ∧
    ((bodyAt 0.5 0.5 0.5 1 3 3 0 : InertialBody ℝ).step Real.rpow).1.velocity = 0 ∧
    ((bodyAt 0 0.5 0.5 0 3 3 0 : InertialBody ℝ).step Real.rpow).1.position = 3 ∧
    ((bodyAt 0 0.5 0.5 0 3 3 0 : InertialBody ℝ).step Real.rpow).1.velocity = 0 ∧
    ((bodyAt 0.5 0.5 0.5 0 3 3 0 : InertialBody ℝ).step Real.rpow).1.accelation = 1 := by
  have hm : ∀ e x : ℝ, (bodyAt e 0.5 0.5 x 3 3 0 : InertialBody ℝ).mass ≠ 0 := by
    intro e x
    norm_num [bodyAt]
  have h1 := (C18_rest_fixed_point Real.rpow rpow_base_zero (rpow_exponent_zero 0)
    (bodyAt 0.5 0.5 0.5 1 3 3 0) (hm _ _) rfl rfl).1 (by norm_num [bodyAt])
  have h2 := ((C18_rest_fixed_point Real.rpow rpow_base_zero (rpow_exponent_zero 0)
    (bodyAt 0 0.5 0.5 0 3 3 0) (hm _ _) rfl rfl).2 rfl).2.2 rfl
  have h3 := ((C18_rest_fixed_point Real.rpow rpow_base_zero (rpow_exponent_zero 0)
    (bodyAt 0.5 0.5 0.5 0 3 3 0) (hm _ _) rfl rfl).2 rfl).1
  refine ⟨hm _ _, h1.1, h1.2.1, h1.2.2, h2.1, h2.2, ?_⟩
  rw [h3]
  norm_num [bodyAt]

end Claims

end inertial_body
